import Mathlib

/-!
Verification of the Task Manager of `src/server/concepts/task.ts`.

The TypeScript class `TaskConcept` is shallowly embedded: the document
store is a list of task documents, each asynchronous method becomes a
pure function from the store to an `Except` result paired with the new
store, and MongoDB `ObjectId` values become a structure carrying a
logical value (determining the canonical string form produced by
`toString()`) together with a representation tag, so that two
structurally different identifiers can share one canonical form.
-/

/-- A MongoDB `ObjectId`.  `val` is the logical 12-byte value that
`toString()` renders; `rep` models the fact that several in-memory
representations of the same logical identifier can exist. -/
structure OId where
  val : Nat
  rep : Nat
deriving DecidableEq, Repr

/-- Canonical string form of an identifier (`ObjectId.toString()`),
abstracted to the logical value it renders. -/
def OId.toStr (o : OId) : Nat := o.val

/-- The `TaskDoc` interface of `task.ts` (the `BaseDoc` fields other
than `_id` play no role in this concept).  `Date` is abstracted to a
natural number timestamp. -/
structure TaskDoc where
  _id : OId
  requester : OId
  title : String
  description : String
  deadline : Nat
  files : List String
  assisters : List OId
  viewed : List OId
  completed : Bool
  completionDate : Option Nat
  completer : Option OId
deriving DecidableEq, Repr

/-- A `Partial<TaskDoc>` as passed to `update`: a field is `none` when
the key is absent from the partial object.  `completionDate` and
`completer` are nullable, hence doubly optional. -/
structure TaskUpdate where
  requester : Option OId := none
  title : Option String := none
  description : Option String := none
  deadline : Option Nat := none
  files : Option (List String) := none
  assisters : Option (List OId) := none
  viewed : Option (List OId) := none
  completed : Option Bool := none
  completionDate : Option (Option Nat) := none
  completer : Option (Option OId) := none
deriving DecidableEq, Repr

/-- MongoDB `$set` of the supplied fields onto a document (the store's
`updateOne` overwrites each supplied field wholesale). -/
def applyUpdate (u : TaskUpdate) (d : TaskDoc) : TaskDoc where
  _id := d._id
  requester := u.requester.getD d.requester
  title := u.title.getD d.title
  description := u.description.getD d.description
  deadline := u.deadline.getD d.deadline
  files := u.files.getD d.files
  assisters := u.assisters.getD d.assisters
  viewed := u.viewed.getD d.viewed
  completed := u.completed.getD d.completed
  completionDate := u.completionDate.getD d.completionDate
  completer := u.completer.getD d.completer

/-- The two error kinds of `concepts/errors.ts` as used by `task.ts`;
`requesterNotMatch` is the specialized `TaskRequesterNotMatchError`
(a `NotAllowedError` carrying the mismatched identifiers). -/
inductive Err where
  | notFound : Err
  | notAllowed : Err
  | requesterNotMatch : OId → OId → Err
deriving DecidableEq, Repr

/-- Both `notAllowed` and its specialized variant are `NotAllowedError`s. -/
def Err.isNotAllowed : Err → Bool
  | .notAllowed => true
  | .requesterNotMatch _ _ => true
  | .notFound => false

/-- Modelled from the spec: the storage collaborator is "a keyed
document store exposing create (insert one, returns id), read-one (by
filter...), update-one (by id, arbitrary partial-field overwrite),
delete-one (by id)" (the framework file `framework/doc.ts` is not under
`src/`).  The `tasks` collection is a list of documents. -/
abbrev DB : Type := List TaskDoc

/-- Store read-one by `_id` filter: first document whose identifier has
the given logical value (MongoDB compares `ObjectId`s by value). -/
def readOne : DB → OId → Option TaskDoc
  | [], _ => none
  | d :: rest, i => if d._id.val = i.val then some d else readOne rest i

/-- Store update-one by `_id` filter: `$set` the supplied fields on the
first matching document; a no-op when no document matches. -/
def updateOne : DB → OId → TaskUpdate → DB
  | [], _, _ => []
  | d :: rest, i, u =>
      if d._id.val = i.val then applyUpdate u d :: rest
      else d :: updateOne rest i u

/-- Store delete-one by `_id` filter: remove the first matching
document; a no-op when no document matches. -/
def deleteOne : DB → OId → DB
  | [], _ => []
  | d :: rest, i => if d._id.val = i.val then rest else d :: deleteOne rest i

/-- Largest identifier value present in the store. -/
def maxVal : DB → Nat
  | [] => 0
  | d :: rest => Nat.max d._id.val (maxVal rest)

/-- A fresh identifier, as generated by the store's insert: its value
collides with no document already present. -/
def freshOId (db : DB) : OId := ⟨maxVal db + 1, 0⟩

namespace TaskConcept

/-- Guard `isRequester`: not-found when the task is absent, otherwise
the specialized not-allowed error when the canonical forms of the
caller and the task's requester differ. -/
def isRequester (db : DB) (requester i : OId) : Except Err Unit :=
  match readOne db i with
  | none => .error .notFound
  | some task =>
      if task.requester.toStr ≠ requester.toStr then
        .error (.requesterNotMatch requester i)
      else .ok ()

/-- Guard `isNotRequester`: not-found when the task is absent,
not-allowed when the caller's canonical form equals the requester's. -/
def isNotRequester (db : DB) (requester i : OId) : Except Err Unit :=
  match readOne db i with
  | none => .error .notFound
  | some task =>
      if task.requester.toStr = requester.toStr then .error .notAllowed
      else .ok ()

/-- Guard `isNotAssister`: not-found when the task is absent,
not-allowed when the caller's canonical form is already among the
assisters' canonical forms. -/
def isNotAssister (db : DB) (assister i : OId) : Except Err Unit :=
  match readOne db i with
  | none => .error .notFound
  | some task =>
      if assister.toStr ∈ task.assisters.map OId.toStr then
        .error .notAllowed
      else .ok ()

/-- Guard `isAssister`: not-found when the task is absent, not-allowed
when the caller's canonical form is not among the assisters'. -/
def isAssister (db : DB) (assister i : OId) : Except Err Unit :=
  match readOne db i with
  | none => .error .notFound
  | some task =>
      if assister.toStr ∈ task.assisters.map OId.toStr then .ok ()
      else .error .notAllowed

/-- `sanitizeUpdate`: throws not-allowed when the partial carries a key
of the denylist `["requester"]`. -/
def sanitizeUpdate (u : TaskUpdate) : Except Err Unit :=
  if u.requester.isSome then .error .notAllowed else .ok ()

/-- `create`: inserts a document with the given content, empty
`assisters`/`viewed`, `completed := false`, null completion fields, and
returns the message, the new id and the freshly read task. -/
def create (db : DB) (requester : OId) (title description : String)
    (deadline : Nat) (files : List String) :
    (String × OId × Option TaskDoc) × DB :=
  let i := freshOId db
  let d : TaskDoc :=
    { _id := i, requester := requester, title := title,
      description := description, deadline := deadline, files := files,
      assisters := [], viewed := [], completed := false,
      completionDate := none, completer := none }
  let db2 := db ++ [d]
  (("Task successfully created!", i, readOne db2 i), db2)

/-- `getTaskById`: the task, or not-found when absent. -/
def getTaskById (db : DB) (i : OId) : Except Err TaskDoc :=
  match readOne db i with
  | none => .error .notFound
  | some t => .ok t

/-- `update`: sanitizes the partial, then issues the store write (no
existence check of its own). -/
def update (db : DB) (i : OId) (u : TaskUpdate) : Except Err (String × DB) :=
  match sanitizeUpdate u with
  | .error e => .error e
  | .ok _ => .ok ("Task successfully updated!", updateOne db i u)

/-- `delete`: unconditional hard delete, always acknowledged. -/
def delete (db : DB) (i : OId) : String × DB :=
  ("Task deleted successfully!", deleteOne db i)

/-- `offerHelp`: guards `isNotRequester` and `isNotAssister`, re-reads
the task (not-found when absent), then appends the assister and
persists the full array. -/
def offerHelp (db : DB) (assister i : OId) : Except Err (String × DB) :=
  match isNotRequester db assister i with
  | .error e => .error e
  | .ok _ =>
    match isNotAssister db assister i with
    | .error e => .error e
    | .ok _ =>
      match readOne db i with
      | none => .error .notFound
      | some task =>
          .ok ("Successfully offered help.",
            updateOne db i { assisters := some (task.assisters ++ [assister]) })

/-- Removal of the first entry whose canonical form matches, as done by
`indexOf` on the mapped canonical forms followed by `splice` (a no-op
when no entry matches). -/
def removeFirst : List OId → OId → List OId
  | [], _ => []
  | x :: xs, a => if x.toStr = a.toStr then xs else x :: removeFirst xs a

/-- `retractHelp`: guards `isNotRequester` and `isAssister`, re-reads
the task (not-found when absent), then removes the first entry matching
the assister's canonical form and persists the result. -/
def retractHelp (db : DB) (assister i : OId) : Except Err (String × DB) :=
  match isNotRequester db assister i with
  | .error e => .error e
  | .ok _ =>
    match isAssister db assister i with
    | .error e => .error e
    | .ok _ =>
      match readOne db i with
      | none => .error .notFound
      | some task =>
          .ok ("Successfully retracted help offer.",
            updateOne db i { assisters := some (removeFirst task.assisters assister) })

/-- `complete`: not-found when the task is absent, otherwise
unconditionally sets `completed`, `completionDate := new Date()` (the
current time is passed explicitly) and `completer := assister` (null
when the optional argument is absent). -/
def complete (db : DB) (i : OId) (assister : Option OId) (now : Nat) :
    Except Err (String × DB) :=
  match readOne db i with
  | none => .error .notFound
  | some _ =>
      .ok ("Successfully completed task.",
        updateOne db i
          { completed := some true, completionDate := some (some now),
            completer := some assister })

/-- `view`: not-found when the task is absent; appends the viewer and
persists only when the viewer's canonical form is not already among the
viewed canonical forms, otherwise leaves the store untouched. -/
def view (db : DB) (viewer i : OId) : Except Err (String × DB) :=
  match readOne db i with
  | none => .error .notFound
  | some task =>
      if viewer.toStr ∈ task.viewed.map OId.toStr then
        .ok ("Successfully viewed task.", db)
      else
        .ok ("Successfully viewed task.",
          updateOne db i { viewed := some (task.viewed ++ [viewer]) })

end TaskConcept

/-! ### Store-level lemmas -/

theorem readOne_eq_none_iff (db : DB) (i : OId) :
    readOne db i = none ↔ ∀ d ∈ db, d._id.val ≠ i.val := by
  induction db with
  | nil => simp [readOne]
  | cons d rest ih =>
      by_cases h : d._id.val = i.val
      · simp [readOne, h]
      · simp [readOne, h, ih]

theorem applyUpdate_id (u : TaskUpdate) (d : TaskDoc) :
    (applyUpdate u d)._id = d._id := rfl

theorem readOne_updateOne (db : DB) (i j : OId) (u : TaskUpdate) :
    readOne (updateOne db i u) j =
      if j.val = i.val then (readOne db i).map (applyUpdate u)
      else readOne db j := by
  induction db with
  | nil => simp [readOne, updateOne]
  | cons d rest ih =>
      by_cases hdi : d._id.val = i.val
      · by_cases hji : j.val = i.val
        · have hdj : d._id.val = j.val := by omega
          simp [readOne, updateOne, hdi, hji, hdj, applyUpdate]
        · have hdj : ¬ d._id.val = j.val := by omega
          have hij : ¬ i.val = j.val := by omega
          simp [readOne, updateOne, hdi, hji, hdj, hij, applyUpdate]
      · by_cases hdj : d._id.val = j.val
        · have hji : ¬ j.val = i.val := by omega
          simp [readOne, updateOne, hdi, hji, hdj]
        · simp [readOne, updateOne, hdi, hdj, ih]

theorem updateOne_of_readOne_none (db : DB) (i : OId) (u : TaskUpdate)
    (h : readOne db i = none) : updateOne db i u = db := by
  induction db with
  | nil => rfl
  | cons d rest ih =>
      rw [readOne_eq_none_iff] at h
      have hd : ¬ d._id.val = i.val := h d (by simp)
      have hrest : readOne rest i = none := by
        rw [readOne_eq_none_iff]; intro x hx; exact h x (by simp [hx])
      simp [updateOne, hd, ih hrest]

theorem deleteOne_of_readOne_none (db : DB) (i : OId)
    (h : readOne db i = none) : deleteOne db i = db := by
  induction db with
  | nil => rfl
  | cons d rest ih =>
      rw [readOne_eq_none_iff] at h
      have hd : ¬ d._id.val = i.val := h d (by simp)
      have hrest : readOne rest i = none := by
        rw [readOne_eq_none_iff]; intro x hx; exact h x (by simp [hx])
      simp [deleteOne, hd, ih hrest]

theorem le_maxVal (db : DB) (d : TaskDoc) (hd : d ∈ db) :
    d._id.val ≤ maxVal db := by
  induction db with
  | nil => cases hd
  | cons x rest ih =>
      rcases List.mem_cons.mp hd with h | h
      · subst h; simp [maxVal]
      · have := ih h; simp [maxVal]; omega

theorem readOne_freshOId (db : DB) : readOne db (freshOId db) = none := by
  rw [readOne_eq_none_iff]
  intro d hd
  have := le_maxVal db d hd
  simp only [freshOId]
  omega

theorem readOne_append_of_none (db : DB) (i : OId) (d : TaskDoc)
    (h : readOne db i = none) :
    readOne (db ++ [d]) i = if d._id.val = i.val then some d else none := by
  induction db with
  | nil => simp [readOne]
  | cons x rest ih =>
      rw [readOne_eq_none_iff] at h
      have hx : ¬ x._id.val = i.val := h x (by simp)
      have hrest : readOne rest i = none := by
        rw [readOne_eq_none_iff]; intro y hy; exact h y (by simp [hy])
      simp [readOne, hx, ih hrest]

theorem readOne_append_self (db : DB) (i : OId) (d : TaskDoc)
    (h : readOne db i = none) (hd : d._id.val = i.val) :
    readOne (db ++ [d]) i = some d := by
  rw [readOne_append_of_none db i d h, if_pos hd]

/-- The document that `create` inserts (the let-bound record of
`create`, named so that theorems can mention it). -/
def createdDoc (db : DB) (r : OId) (ti de : String) (dl : Nat)
    (fs : List String) : TaskDoc :=
  { _id := freshOId db, requester := r, title := ti, description := de,
    deadline := dl, files := fs, assisters := [], viewed := [],
    completed := false, completionDate := none, completer := none }

theorem readOne_deleteOne_self (db : DB) (i : OId)
    (hnd : (db.map (fun d => d._id.val)).Nodup) :
    readOne (deleteOne db i) i = none := by
  induction db with
  | nil => rfl
  | cons d rest ih =>
      rw [List.map_cons, List.nodup_cons] at hnd
      by_cases hd : d._id.val = i.val
      · rw [readOne_eq_none_iff]
        intro x hx hxi
        have : d._id.val ∈ rest.map (fun d => d._id.val) := by
          rw [hd, ← hxi]
          exact List.mem_map.mpr ⟨x, by simpa [deleteOne, hd] using hx, rfl⟩
        exact hnd.1 this
      · simp only [deleteOne, if_neg hd]
        simp [readOne, hd, ih hnd.2]

/-! ### Operation-level equation lemmas -/

namespace TaskConcept

theorem offerHelp_eq (db : DB) (u i : OId) :
    offerHelp db u i =
      match readOne db i with
      | none => .error .notFound
      | some t =>
          if t.requester.toStr = u.toStr then .error .notAllowed
          else if u.toStr ∈ t.assisters.map OId.toStr then .error .notAllowed
          else .ok ("Successfully offered help.",
              updateOne db i { assisters := some (t.assisters ++ [u]) }) := by
  cases h : readOne db i with
  | none => simp [offerHelp, isNotRequester, h]
  | some t =>
      by_cases h1 : t.requester.toStr = u.toStr
      · simp [offerHelp, isNotRequester, h, h1]
      · by_cases h2 : u.toStr ∈ t.assisters.map OId.toStr
        · simp [offerHelp, isNotRequester, isNotAssister, h, h1, h2]
        · simp [offerHelp, isNotRequester, isNotAssister, h, h1, h2]

theorem retractHelp_eq (db : DB) (u i : OId) :
    retractHelp db u i =
      match readOne db i with
      | none => .error .notFound
      | some t =>
          if t.requester.toStr = u.toStr then .error .notAllowed
          else if u.toStr ∈ t.assisters.map OId.toStr then
            .ok ("Successfully retracted help offer.",
              updateOne db i { assisters := some (removeFirst t.assisters u) })
          else .error .notAllowed := by
  cases h : readOne db i with
  | none => simp [retractHelp, isNotRequester, h]
  | some t =>
      by_cases h1 : t.requester.toStr = u.toStr
      · simp [retractHelp, isNotRequester, h, h1]
      · by_cases h2 : u.toStr ∈ t.assisters.map OId.toStr
        · simp [retractHelp, isNotRequester, isAssister, h, h1, h2]
        · simp [retractHelp, isNotRequester, isAssister, h, h1, h2]

theorem view_eq (db : DB) (u i : OId) :
    view db u i =
      match readOne db i with
      | none => .error .notFound
      | some t =>
          if u.toStr ∈ t.viewed.map OId.toStr then
            .ok ("Successfully viewed task.", db)
          else
            .ok ("Successfully viewed task.",
              updateOne db i { viewed := some (t.viewed ++ [u]) }) := by
  cases h : readOne db i with
  | none => simp [view, h]
  | some t => simp [view, h]

theorem complete_eq (db : DB) (i : OId) (a : Option OId) (now : Nat) :
    complete db i a now =
      match readOne db i with
      | none => .error .notFound
      | some _ =>
          .ok ("Successfully completed task.",
            updateOne db i
              { completed := some true, completionDate := some (some now),
                completer := some a }) := by
  cases h : readOne db i with
  | none => simp [complete, h]
  | some t => simp [complete, h]

theorem update_eq (db : DB) (i : OId) (u : TaskUpdate) :
    update db i u =
      if u.requester.isSome then .error .notAllowed
      else .ok ("Task successfully updated!", updateOne db i u) := by
  by_cases h : u.requester.isSome
  · simp [update, sanitizeUpdate, h]
  · simp [update, sanitizeUpdate, h]

theorem removeFirst_eq_filter (l : List OId) (a : OId)
    (h : (l.map OId.toStr).Nodup) :
    removeFirst l a = l.filter (fun x => decide (x.toStr ≠ a.toStr)) := by
  induction l with
  | nil => rfl
  | cons x xs ih =>
      rw [List.map_cons, List.nodup_cons] at h
      by_cases hx : x.toStr = a.toStr
      · have hall : ∀ y ∈ xs, (!decide (y.toStr = a.toStr)) = true := by
          intro y hy
          have hne : y.toStr ≠ x.toStr := by
            intro hc
            exact h.1 (hc ▸ List.mem_map.mpr ⟨y, hy, rfl⟩)
          rw [hx] at hne
          simp [hne]
        simp only [removeFirst, if_pos hx]
        rw [List.filter_cons]
        simp only [hx, decide_not, decide_eq_true_eq]
        rw [if_neg (by simp)]
        exact ((List.filter_eq_self).mpr hall).symm
      · simp [removeFirst, hx, List.filter_cons, ih h.2]

theorem toStr_notMem_removeFirst (l : List OId) (a : OId)
    (h : (l.map OId.toStr).Nodup) :
    a.toStr ∉ (removeFirst l a).map OId.toStr := by
  rw [removeFirst_eq_filter l a h]
  intro hmem
  obtain ⟨x, hx, hxa⟩ := List.mem_map.mp hmem
  have := (List.mem_filter.mp hx).2
  simp at this
  exact this hxa

end TaskConcept

/-! ### Concrete states used by the witnesses -/

def uR : OId := ⟨1, 0⟩

/-- The same logical user as `uR` under another in-memory representation. -/
def uRalt : OId := ⟨1, 7⟩

def uA : OId := ⟨2, 0⟩

def uB : OId := ⟨3, 0⟩

def tid0 : OId := ⟨10, 0⟩

def task0 : TaskDoc :=
  { _id := tid0, requester := uR, title := "Fix sink",
    description := "kitchen sink is leaking", deadline := 20250101,
    files := [], assisters := [], viewed := [], completed := false,
    completionDate := none, completer := none }

def db0 : DB := [task0]

def db0off : DB := [{ task0 with assisters := [uA] }]

def task1 : TaskDoc := { task0 with assisters := [uA, uB] }

def db1 : DB := [task1]

def taskDone : TaskDoc :=
  { task0 with completed := true, completionDate := some 5, completer := some uA }

def dbDone : DB := [taskDone]

def updFalse : TaskUpdate := { completed := some false }

def dbUndone : DB := [{ taskDone with completed := false }]

def dbDone2 : DB :=
  [{ taskDone with completionDate := some 7, completer := some uB }]

def updTitle : TaskUpdate := { title := some "new" }

def updReq : TaskUpdate := { requester := some uB }

/-! ### Claim theorems -/

namespace TaskConcept

/-- Claim C1: when `offerHelp(U, T)` succeeds, U is a member of
`assisters(T)` afterward, appended at the end of the existing array
(prior order preserved), and a second `offerHelp(U, T)` on the
resulting state fails with `NotAllowed`. -/
theorem offerHelp_appends_then_denies (db db2 : DB) (u i : OId) (m : String)
    (h : offerHelp db u i = Except.ok (m, db2)) :
    ∃ t t2, readOne db i = some t ∧ readOne db2 i = some t2
      ∧ t2.assisters = t.assisters ++ [u]
      ∧ u ∈ t2.assisters
      ∧ offerHelp db2 u i = Except.error Err.notAllowed := by
  rw [offerHelp_eq] at h
  cases ht : readOne db i with
  | none => rw [ht] at h; cases h
  | some t =>
      rw [ht] at h
      dsimp only at h
      by_cases h1 : t.requester.toStr = u.toStr
      · rw [if_pos h1] at h; cases h
      · rw [if_neg h1] at h
        by_cases h2 : u.toStr ∈ t.assisters.map OId.toStr
        · rw [if_pos h2] at h; cases h
        · rw [if_neg h2] at h
          rw [Except.ok.injEq, Prod.mk.injEq] at h
          obtain ⟨hm, hdb⟩ := h
          subst hdb
          have hread :
              readOne (updateOne db i { assisters := some (t.assisters ++ [u]) }) i
                = some (applyUpdate { assisters := some (t.assisters ++ [u]) } t) := by
            rw [readOne_updateOne, if_pos rfl, ht]; rfl
          refine ⟨t, _, rfl, hread, ?_, ?_, ?_⟩
          · simp [applyUpdate]
          · simp [applyUpdate]
          · rw [offerHelp_eq, hread]
            simp [applyUpdate, h1]

/-- Claim C1 witness: the property at a concrete one-task store. -/
theorem offerHelp_appends_then_denies_wit :
    ∃ t t2, readOne db0 tid0 = some t ∧ readOne db0off tid0 = some t2
      ∧ t2.assisters = t.assisters ++ [uA]
      ∧ uA ∈ t2.assisters
      ∧ offerHelp db0off uA tid0 = Except.error Err.notAllowed :=
  offerHelp_appends_then_denies db0 db0off uA tid0 "Successfully offered help." rfl

/-- Claim C8: `offerHelp(requester(T), T)` always fails with
`NotAllowed`, the caller being compared with the requester by canonical
string form, whatever the rest of the task's state. -/
theorem offerHelp_requester_denied (db : DB) (i u : OId) (t : TaskDoc)
    (ht : readOne db i = some t) (hu : u.toStr = t.requester.toStr) :
    offerHelp db u i = Except.error Err.notAllowed := by
  rw [offerHelp_eq, ht]
  simp [hu]

/-- Claim C8 witness: a second in-memory representation of the
requester's identifier is still denied. -/
theorem offerHelp_requester_denied_wit :
    offerHelp db0 uRalt tid0 = Except.error Err.notAllowed :=
  offerHelp_requester_denied db0 tid0 uRalt task0 rfl rfl

/-- Claim C5: on an existing task, `complete` succeeds unconditionally,
sets `completed := true`, a non-null `completionDate` and
`completer := A`; a second `complete` is accepted and overwrites
`completionDate` and `completer`. -/
theorem complete_unconditional (db : DB) (i : OId) (a : Option OId) (now : Nat)
    (t : TaskDoc) (ht : readOne db i = some t) :
    ∃ db2 t2,
      complete db i a now = Except.ok ("Successfully completed task.", db2)
      ∧ readOne db2 i = some t2 ∧ t2.completed = true
      ∧ t2.completionDate = some now ∧ t2.completer = a
      ∧ ∀ a2 now2, ∃ db3 t3,
          complete db2 i a2 now2 = Except.ok ("Successfully completed task.", db3)
          ∧ readOne db3 i = some t3 ∧ t3.completed = true
          ∧ t3.completionDate = some now2 ∧ t3.completer = a2 := by
  have hread :
      readOne (updateOne db i
          { completed := some true, completionDate := some (some now),
            completer := some a }) i
        = some (applyUpdate
            { completed := some true, completionDate := some (some now),
              completer := some a } t) := by
    rw [readOne_updateOne, if_pos rfl, ht]; rfl
  refine ⟨_, _, by rw [complete_eq, ht], hread, rfl, rfl, rfl, ?_⟩
  intro a2 now2
  have hread2 :
      readOne (updateOne (updateOne db i
          { completed := some true, completionDate := some (some now),
            completer := some a }) i
          { completed := some true, completionDate := some (some now2),
            completer := some a2 }) i
        = some (applyUpdate
            { completed := some true, completionDate := some (some now2),
              completer := some a2 }
            (applyUpdate
              { completed := some true, completionDate := some (some now),
                completer := some a } t)) := by
    rw [readOne_updateOne, if_pos rfl, hread]; rfl
  exact ⟨_, _, by rw [complete_eq, hread], hread2, rfl, rfl, rfl⟩

/-- Claim C5 witness: completing, then re-completing, a concrete task. -/
theorem complete_unconditional_wit :
    ∃ db2 t2,
      complete db0 tid0 (some uA) 99 = Except.ok ("Successfully completed task.", db2)
      ∧ readOne db2 tid0 = some t2 ∧ t2.completed = true
      ∧ t2.completionDate = some 99 ∧ t2.completer = some uA
      ∧ ∀ a2 now2, ∃ db3 t3,
          complete db2 tid0 a2 now2 = Except.ok ("Successfully completed task.", db3)
          ∧ readOne db3 tid0 = some t3 ∧ t3.completed = true
          ∧ t3.completionDate = some now2 ∧ t3.completer = a2 :=
  complete_unconditional db0 tid0 (some uA) 99 task0 rfl

/-- Claim C3 (amended): on an id resolving to no task, `offerHelp`,
`retractHelp`, `complete`, `view` and `getTaskById` fail with
`NotFound`; `update` and `delete` perform no existence check: a
sanitized `update` reports success with the store unchanged, and
`delete` acknowledges unconditionally. -/
theorem missing_id_behavior (db : DB) (i a : OId) (ao : Option OId)
    (now : Nat) (u : TaskUpdate) (h : readOne db i = none) :
    offerHelp db a i = Except.error Err.notFound
    ∧ retractHelp db a i = Except.error Err.notFound
    ∧ complete db i ao now = Except.error Err.notFound
    ∧ view db a i = Except.error Err.notFound
    ∧ getTaskById db i = Except.error Err.notFound
    ∧ (u.requester = none →
        update db i u = Except.ok ("Task successfully updated!", db))
    ∧ delete db i = ("Task deleted successfully!", db) := by
  refine ⟨?_, ?_, ?_, ?_, ?_, ?_, ?_⟩
  · rw [offerHelp_eq, h]
  · rw [retractHelp_eq, h]
  · rw [complete_eq, h]
  · rw [view_eq, h]
  · simp [getTaskById, h]
  · intro hr
    rw [update_eq]
    simp [hr, updateOne_of_readOne_none db i u h]
  · simp [delete, deleteOne_of_readOne_none db i h]

/-- Claim C3 witness: the behavior on the empty store. -/
theorem missing_id_behavior_wit :
    offerHelp [] uA tid0 = Except.error Err.notFound
    ∧ retractHelp [] uA tid0 = Except.error Err.notFound
    ∧ complete [] tid0 (some uA) 0 = Except.error Err.notFound
    ∧ view [] uA tid0 = Except.error Err.notFound
    ∧ getTaskById [] tid0 = Except.error Err.notFound
    ∧ (updTitle.requester = none →
        update [] tid0 updTitle = Except.ok ("Task successfully updated!", []))
    ∧ delete [] tid0 = ("Task deleted successfully!", []) :=
  missing_id_behavior [] tid0 uA (some uA) 0 updTitle rfl

/-- Claim C3 counterexample: `update` on an id that resolves to no
existing task returns success (and `delete` acknowledges) instead of
failing with `NotFound`. -/
theorem missing_id_update_succeeds :
    readOne ([] : DB) tid0 = none
    ∧ update ([] : DB) tid0 updTitle
        = Except.ok ("Task successfully updated!", ([] : DB))
    ∧ delete ([] : DB) tid0 = ("Task deleted successfully!", ([] : DB)) :=
  ⟨rfl, rfl, rfl⟩

/-- Claim C10: `delete` is unconditional — no existence or authorization
check, always acknowledged — and afterwards `getTaskById` on the same id
fails with `NotFound`. -/
theorem delete_unconditional (db : DB) (i : OId)
    (hnd : (db.map (fun d => d._id.val)).Nodup) :
    delete db i = ("Task deleted successfully!", deleteOne db i)
    ∧ getTaskById (deleteOne db i) i = Except.error Err.notFound := by
  refine ⟨rfl, ?_⟩
  simp [getTaskById, readOne_deleteOne_self db i hnd]

/-- Claim C10 witness: deleting the only task of a concrete store. -/
theorem delete_unconditional_wit :
    delete db0 tid0 = ("Task deleted successfully!", deleteOne db0 tid0)
    ∧ getTaskById (deleteOne db0 tid0) tid0 = Except.error Err.notFound :=
  delete_unconditional db0 tid0 (by decide)

end TaskConcept

namespace TaskConcept

/-- Claim C2: for an existing task and a non-requester caller,
`retractHelp` succeeds iff the caller's canonical form is among the
assisters'; on success the caller is gone and the remaining assisters
keep their relative order; otherwise it fails with `NotAllowed`.  The
no-duplicates invariant of `assisters` is a hypothesis. -/
theorem retractHelp_correct (db : DB) (i u : OId) (t : TaskDoc)
    (ht : readOne db i = some t)
    (hreq : u.toStr ≠ t.requester.toStr)
    (hnd : (t.assisters.map OId.toStr).Nodup) :
    ((∃ r, retractHelp db u i = Except.ok r)
        ↔ u.toStr ∈ t.assisters.map OId.toStr)
    ∧ (u.toStr ∉ t.assisters.map OId.toStr →
        retractHelp db u i = Except.error Err.notAllowed)
    ∧ ∀ m db2, retractHelp db u i = Except.ok (m, db2) →
        ∃ t2, readOne db2 i = some t2
          ∧ t2.assisters
              = t.assisters.filter (fun x => decide (x.toStr ≠ u.toStr))
          ∧ u.toStr ∉ t2.assisters.map OId.toStr := by
  have hner : ¬ t.requester.toStr = u.toStr := fun hc => hreq hc.symm
  by_cases hmem : u.toStr ∈ t.assisters.map OId.toStr
  · have hok : retractHelp db u i
        = Except.ok ("Successfully retracted help offer.",
            updateOne db i { assisters := some (removeFirst t.assisters u) }) := by
      rw [retractHelp_eq, ht]
      dsimp only
      rw [if_neg hner, if_pos hmem]
    refine ⟨⟨fun _ => hmem, fun _ => ⟨_, hok⟩⟩, fun hn => absurd hmem hn, ?_⟩
    intro m db2 h2
    rw [hok, Except.ok.injEq, Prod.mk.injEq] at h2
    obtain ⟨hm, hdb⟩ := h2
    subst hdb
    have hread :
        readOne (updateOne db i { assisters := some (removeFirst t.assisters u) }) i
          = some (applyUpdate { assisters := some (removeFirst t.assisters u) } t) := by
      rw [readOne_updateOne, if_pos rfl, ht]; rfl
    refine ⟨_, hread, ?_, ?_⟩
    · exact removeFirst_eq_filter t.assisters u hnd
    · exact toStr_notMem_removeFirst t.assisters u hnd
  · have herr : retractHelp db u i = Except.error Err.notAllowed := by
      rw [retractHelp_eq, ht]
      dsimp only
      rw [if_neg hner, if_neg hmem]
    refine ⟨⟨?_, fun hm => absurd hm hmem⟩, fun _ => herr, ?_⟩
    · rintro ⟨r, hr⟩
      rw [herr] at hr
      cases hr
    · intro m db2 h2
      rw [herr] at h2
      cases h2

/-- Claim C2 witness: retracting the first of two assisters of a
concrete task. -/
theorem retractHelp_correct_wit :
    ((∃ r, retractHelp db1 uA tid0 = Except.ok r)
        ↔ uA.toStr ∈ task1.assisters.map OId.toStr)
    ∧ (uA.toStr ∉ task1.assisters.map OId.toStr →
        retractHelp db1 uA tid0 = Except.error Err.notAllowed)
    ∧ ∀ m db2, retractHelp db1 uA tid0 = Except.ok (m, db2) →
        ∃ t2, readOne db2 tid0 = some t2
          ∧ t2.assisters
              = task1.assisters.filter (fun x => decide (x.toStr ≠ uA.toStr))
          ∧ uA.toStr ∉ t2.assisters.map OId.toStr :=
  retractHelp_correct db1 tid0 uA task1 rfl (by decide) (by decide)

end TaskConcept

namespace TaskConcept

theorem offerHelp_ok_inv (db db2 : DB) (u i : OId) (m : String)
    (h : offerHelp db u i = Except.ok (m, db2)) :
    ∃ t, readOne db i = some t
      ∧ db2 = updateOne db i { assisters := some (t.assisters ++ [u]) } := by
  rw [offerHelp_eq] at h
  cases ht : readOne db i with
  | none => rw [ht] at h; cases h
  | some t =>
      rw [ht] at h
      dsimp only at h
      by_cases h1 : t.requester.toStr = u.toStr
      · rw [if_pos h1] at h; cases h
      · rw [if_neg h1] at h
        by_cases h2 : u.toStr ∈ t.assisters.map OId.toStr
        · rw [if_pos h2] at h; cases h
        · rw [if_neg h2, Except.ok.injEq, Prod.mk.injEq] at h
          exact ⟨t, rfl, h.2.symm⟩

theorem retractHelp_ok_inv (db db2 : DB) (u i : OId) (m : String)
    (h : retractHelp db u i = Except.ok (m, db2)) :
    ∃ t, readOne db i = some t
      ∧ db2 = updateOne db i { assisters := some (removeFirst t.assisters u) } := by
  rw [retractHelp_eq] at h
  cases ht : readOne db i with
  | none => rw [ht] at h; cases h
  | some t =>
      rw [ht] at h
      dsimp only at h
      by_cases h1 : t.requester.toStr = u.toStr
      · rw [if_pos h1] at h; cases h
      · rw [if_neg h1] at h
        by_cases h2 : u.toStr ∈ t.assisters.map OId.toStr
        · rw [if_pos h2, Except.ok.injEq, Prod.mk.injEq] at h
          exact ⟨t, rfl, h.2.symm⟩
        · rw [if_neg h2] at h; cases h

theorem view_ok_inv (db db2 : DB) (u i : OId) (m : String)
    (h : view db u i = Except.ok (m, db2)) :
    ∃ t, readOne db i = some t
      ∧ (db2 = db
        ∨ db2 = updateOne db i { viewed := some (t.viewed ++ [u]) }) := by
  rw [view_eq] at h
  cases ht : readOne db i with
  | none => rw [ht] at h; cases h
  | some t =>
      rw [ht] at h
      dsimp only at h
      by_cases h1 : u.toStr ∈ t.viewed.map OId.toStr
      · rw [if_pos h1, Except.ok.injEq, Prod.mk.injEq] at h
        exact ⟨t, rfl, Or.inl h.2.symm⟩
      · rw [if_neg h1, Except.ok.injEq, Prod.mk.injEq] at h
        exact ⟨t, rfl, Or.inr h.2.symm⟩

theorem complete_ok_inv (db db2 : DB) (i : OId) (a : Option OId) (now : Nat)
    (m : String) (h : complete db i a now = Except.ok (m, db2)) :
    db2 = updateOne db i
      { completed := some true, completionDate := some (some now),
        completer := some a } := by
  rw [complete_eq] at h
  cases ht : readOne db i with
  | none => rw [ht] at h; cases h
  | some t =>
      rw [ht] at h
      dsimp only at h
      rw [Except.ok.injEq, Prod.mk.injEq] at h
      exact h.2.symm

theorem readOne_congr (db : DB) (i j : OId) (h : i.val = j.val) :
    readOne db i = readOne db j := by
  induction db with
  | nil => rfl
  | cons d rest ih => simp [readOne, h, ih]

theorem completed_after_updateOne (db : DB) (i j : OId) (u : TaskUpdate)
    (hu : u.completed = none ∨ u.completed = some true)
    (h : (readOne db i).map TaskDoc.completed = some true) :
    (readOne (updateOne db j u) i).map TaskDoc.completed = some true := by
  rw [readOne_updateOne]
  by_cases hij : i.val = j.val
  · rw [if_pos hij, ← readOne_congr db i j hij]
    cases hr : readOne db i with
    | none => rw [hr] at h; cases h
    | some t =>
        rw [hr] at h
        have htc : t.completed = true := by simpa using h
        rcases hu with hu | hu <;> simp [applyUpdate, hu, htc]
  · rw [if_neg hij]
    exact h

/-- Claim C4 (amended): the completed flag is monotonic under
`offerHelp`, `retractHelp`, `view` and `complete`; the generic `update`
is excluded, since `sanitizeUpdate` only forbids the `requester` field
and an update supplying `completed := false` resets the flag. -/
theorem completed_monotonic (db db2 : DB) (i j a : OId) (ao : Option OId)
    (now : Nat) (m : String)
    (h : (readOne db i).map TaskDoc.completed = some true)
    (hop : offerHelp db a j = Except.ok (m, db2)
        ∨ retractHelp db a j = Except.ok (m, db2)
        ∨ view db a j = Except.ok (m, db2)
        ∨ complete db j ao now = Except.ok (m, db2)) :
    (readOne db2 i).map TaskDoc.completed = some true := by
  rcases hop with hop | hop | hop | hop
  · obtain ⟨t, ht, rfl⟩ := offerHelp_ok_inv db db2 a j m hop
    exact completed_after_updateOne db i j _ (Or.inl rfl) h
  · obtain ⟨t, ht, rfl⟩ := retractHelp_ok_inv db db2 a j m hop
    exact completed_after_updateOne db i j _ (Or.inl rfl) h
  · obtain ⟨t, ht, hdb⟩ := view_ok_inv db db2 a j m hop
    rcases hdb with rfl | rfl
    · exact h
    · exact completed_after_updateOne db i j _ (Or.inl rfl) h
  · obtain rfl := complete_ok_inv db db2 j ao now m hop
    exact completed_after_updateOne db i j _ (Or.inr rfl) h

/-- Claim C4 witness: re-completing an already completed task keeps the
flag set. -/
theorem completed_monotonic_wit :
    (readOne dbDone2 tid0).map TaskDoc.completed = some true :=
  completed_monotonic dbDone dbDone2 tid0 tid0 uB (some uB) 7
    "Successfully completed task." rfl
    (Or.inr (Or.inr (Or.inr rfl)))

/-- Claim C4 counterexample: a generic `update` carrying
`completed := false` is accepted by `sanitizeUpdate` (whose denylist is
only `["requester"]`) and resets the flag of a completed task. -/
theorem completed_reset_by_update :
    (readOne dbDone tid0).map TaskDoc.completed = some true
    ∧ update dbDone tid0 updFalse
        = Except.ok ("Task successfully updated!", dbUndone)
    ∧ (readOne dbUndone tid0).map TaskDoc.completed = some false :=
  ⟨rfl, rfl, rfl⟩

/-- Claim C6: `update` fails with `NotAllowed` whenever the partial
carries the `requester` field (and then writes nothing); a partial
without `requester` succeeds, leaves `requester` unchanged, and
overwrites the supplied fields wholesale. -/
theorem update_sanitizes (db : DB) (i : OId) (u : TaskUpdate) :
    (∀ x, u.requester = some x →
        update db i u = Except.error Err.notAllowed)
    ∧ (u.requester = none →
        update db i u = Except.ok ("Task successfully updated!", updateOne db i u)
        ∧ ∀ t, readOne db i = some t →
            readOne (updateOne db i u) i = some (applyUpdate u t)
            ∧ (applyUpdate u t).requester = t.requester
            ∧ (∀ s, u.title = some s → (applyUpdate u t).title = s)
            ∧ (∀ l, u.assisters = some l → (applyUpdate u t).assisters = l)
            ∧ (∀ b, u.completed = some b → (applyUpdate u t).completed = b)) := by
  constructor
  · intro x hx
    rw [update_eq]
    simp [hx]
  · intro hr
    constructor
    · rw [update_eq]
      simp [hr]
    · intro t ht
      refine ⟨?_, ?_, ?_, ?_, ?_⟩
      · rw [readOne_updateOne, if_pos rfl, ht]
        rfl
      · simp [applyUpdate, hr]
      · intro s hs; simp [applyUpdate, hs]
      · intro l hl; simp [applyUpdate, hl]
      · intro b hb; simp [applyUpdate, hb]

/-- Claim C6 witness: an update of the requester is denied, a title
update succeeds and keeps the requester. -/
theorem update_sanitizes_wit :
    update db0 tid0 updReq = Except.error Err.notAllowed
    ∧ update db0 tid0 updTitle
        = Except.ok ("Task successfully updated!", updateOne db0 tid0 updTitle)
    ∧ readOne (updateOne db0 tid0 updTitle) tid0
        = some (applyUpdate updTitle task0)
    ∧ (applyUpdate updTitle task0).requester = task0.requester
    ∧ (applyUpdate updTitle task0).title = "new" := by
  refine ⟨(update_sanitizes db0 tid0 updReq).1 uB rfl, ?_, ?_, ?_, ?_⟩
  · exact ((update_sanitizes db0 tid0 updTitle).2 rfl).1
  · exact (((update_sanitizes db0 tid0 updTitle).2 rfl).2 task0 rfl).1
  · exact (((update_sanitizes db0 tid0 updTitle).2 rfl).2 task0 rfl).2.1
  · exact (((update_sanitizes db0 tid0 updTitle).2 rfl).2 task0 rfl).2.2.1 "new" rfl

end TaskConcept

namespace TaskConcept

/-- Claim C7: `view` is idempotent — two calls leave `viewed` with
exactly one occurrence of the viewer (canonical form), nothing is ever
removed from `viewed`, and a view by an already-present viewer leaves
the store untouched.  The no-duplicates invariant of `viewed` is a
hypothesis. -/
theorem view_idempotent (db : DB) (i u : OId) (t : TaskDoc)
    (ht : readOne db i = some t)
    (hc : (t.viewed.map OId.toStr).count u.toStr ≤ 1) :
    ∃ db1, view db u i = Except.ok ("Successfully viewed task.", db1)
      ∧ (u.toStr ∈ t.viewed.map OId.toStr → db1 = db)
      ∧ ∃ db2 t2, view db1 u i = Except.ok ("Successfully viewed task.", db2)
        ∧ readOne db2 i = some t2
        ∧ ((t2.viewed.map OId.toStr).count u.toStr = 1)
        ∧ (t2.viewed = t.viewed ∨ t2.viewed = t.viewed ++ [u]) := by
  by_cases hmem : u.toStr ∈ t.viewed.map OId.toStr
  · have h1 : view db u i = Except.ok ("Successfully viewed task.", db) := by
      rw [view_eq, ht]
      dsimp only
      rw [if_pos hmem]
    have hcount : (t.viewed.map OId.toStr).count u.toStr = 1 :=
      Nat.le_antisymm hc (List.count_pos_iff.mpr hmem)
    exact ⟨db, h1, fun _ => rfl, db, t, h1, ht, hcount, Or.inl rfl⟩
  · have h1 : view db u i
        = Except.ok ("Successfully viewed task.",
            updateOne db i { viewed := some (t.viewed ++ [u]) }) := by
      rw [view_eq, ht]
      dsimp only
      rw [if_neg hmem]
    have hread :
        readOne (updateOne db i { viewed := some (t.viewed ++ [u]) }) i
          = some (applyUpdate { viewed := some (t.viewed ++ [u]) } t) := by
      rw [readOne_updateOne, if_pos rfl, ht]; rfl
    have hmem2 : u.toStr
        ∈ (applyUpdate { viewed := some (t.viewed ++ [u]) } t).viewed.map OId.toStr := by
      simp [applyUpdate]
    have h2 : view (updateOne db i { viewed := some (t.viewed ++ [u]) }) u i
        = Except.ok ("Successfully viewed task.",
            updateOne db i { viewed := some (t.viewed ++ [u]) }) := by
      rw [view_eq, hread]
      dsimp only
      rw [if_pos hmem2]
    have hcount :
        ((applyUpdate { viewed := some (t.viewed ++ [u]) } t).viewed.map
            OId.toStr).count u.toStr = 1 := by
      have h0 : (t.viewed.map OId.toStr).count u.toStr = 0 :=
        List.count_eq_zero.mpr hmem
      simp [applyUpdate, List.count_append, h0]
    exact ⟨_, h1, fun hm => absurd hm hmem, _, _, h2, hread, hcount, Or.inr rfl⟩

/-- Claim C7 witness: a fresh viewer on a concrete task, viewed twice. -/
theorem view_idempotent_wit :
    ∃ db1, view db0 uB tid0 = Except.ok ("Successfully viewed task.", db1)
      ∧ (uB.toStr ∈ task0.viewed.map OId.toStr → db1 = db0)
      ∧ ∃ db2 t2, view db1 uB tid0 = Except.ok ("Successfully viewed task.", db2)
        ∧ readOne db2 tid0 = some t2
        ∧ ((t2.viewed.map OId.toStr).count uB.toStr = 1)
        ∧ (t2.viewed = task0.viewed ∨ t2.viewed = task0.viewed ++ [uB]) :=
  view_idempotent db0 tid0 uB task0 rfl (by decide)

/-- Claim C9: `create` always succeeds and produces a task carrying the
given requester, title, description, deadline and files, with empty
`assisters` and `viewed`, `completed = false`, null `completionDate`
and `completer`; it returns the new id together with the freshly read
task. -/
theorem create_correct (db : DB) (r : OId) (ti de : String) (dl : Nat)
    (fs : List String) :
    ∃ (i : OId) (task : TaskDoc) (db2 : DB),
      create db r ti de dl fs = (("Task successfully created!", i, some task), db2)
      ∧ task._id = i ∧ task.requester = r ∧ task.title = ti
      ∧ task.description = de ∧ task.deadline = dl ∧ task.files = fs
      ∧ task.assisters = [] ∧ task.viewed = [] ∧ task.completed = false
      ∧ task.completionDate = none ∧ task.completer = none := by
  have h : create db r ti de dl fs
      = (("Task successfully created!", freshOId db,
          readOne (db ++ [createdDoc db r ti de dl fs]) (freshOId db)),
         db ++ [createdDoc db r ti de dl fs]) := rfl
  rw [readOne_append_self db (freshOId db) (createdDoc db r ti de dl fs)
    (readOne_freshOId db) rfl] at h
  exact ⟨freshOId db, createdDoc db r ti de dl fs,
    db ++ [createdDoc db r ti de dl fs], h,
    rfl, rfl, rfl, rfl, rfl, rfl, rfl, rfl, rfl, rfl, rfl⟩

end TaskConcept
